import Mathlib

/-!
Verification development for the vashi_invoice_frontend repository.

The repository's Marathi numeral, amount-in-words, transliteration and
invoice-calculation logic is embedded shallowly below.  JavaScript numbers
are modelled as rationals, JavaScript integer-valued intermediates as
integers; the JS primitives Math.floor, Math.round, the truncating % and
parseFloat are given explicit models.  Fallible or external operations
(the Aksharamukha backend) are modelled as explicit oracle parameters.
-/

namespace VashiInvoice

/-! ## JavaScript numeric primitives -/

/-- Model of JS Math.floor on a rational: floor division of numerator by
denominator (the core Int division is Euclidean, which is floor division
for the positive denominator of a reduced rational). -/
def jsFloor (q : ℚ) : ℤ := q.num / (q.den : ℤ)

/-- Model of JS Math.trunc, used by the JS % operator: rounds toward zero. -/
def jsTrunc (q : ℚ) : ℤ := if 0 ≤ q then jsFloor q else - jsFloor (- q)

/-- Model of JS Math.round: round half toward positive infinity. -/
def jsRound (q : ℚ) : ℤ := jsFloor (q + 1/2)

/-- Model of the JS % operator on numbers: a - b * trunc(a / b). -/
def jsMod (a b : ℚ) : ℚ := a - b * (jsTrunc (a / b) : ℚ)

/-- Model of Number.prototype.toFixed(2) followed by unary plus:
round to two decimal places. -/
def toFixed2 (q : ℚ) : ℚ := (jsRound (q * 100) : ℚ) / 100

/-! ## Character classes -/

/-- ASCII decimal digit test. -/
def isAsciiDigit (c : Char) : Bool := '0' ≤ c && c ≤ '9'

/-- Devanagari block test, the JS regex class [ऀ-ॿ]. -/
def isDevChar (c : Char) : Bool := 0x900 ≤ c.toNat && c.toNat ≤ 0x97F

/-- The ten Devanagari digit glyphs, keys of MARATHI_TO_ENGLISH. -/
def devanagariDigits : List Char := ['०', '१', '२', '३', '४', '५', '६', '७', '८', '९']

/-- The ten ASCII digit glyphs, keys of ENGLISH_TO_MARATHI. -/
def asciiDigits : List Char := ['0', '1', '2', '3', '4', '5', '6', '7', '8', '9']

/-- JS whitespace class \s (the code points relevant here). -/
def isJsWs (c : Char) : Bool :=
  c = ' ' || c = '\t' || c = '\n' || c = '\r' ||
  c.toNat = 11 || c.toNat = 12 || c.toNat = 0xA0 ||
  c.toNat = 0x2028 || c.toNat = 0x2029 || c.toNat = 0xFEFF

/-- The punctuation class of the tokenizer regexes in the transliteration
code: [.,;:!?\-_()\[\]\x7b\x7d and the two quote characters]. -/
def isSepPunct (c : Char) : Bool :=
  c = '.' || c = ',' || c = ';' || c = ':' || c = '!' || c = '?' ||
  c = '-' || c = '_' || c = '(' || c = ')' || c = '[' || c = ']' ||
  c = Char.ofNat 123 || c = Char.ofNat 125 || c = Char.ofNat 39 || c = '"'

/-- Model of JS String.prototype.toLowerCase for the ASCII range used here. -/
def jsToLower (s : String) : String := String.mk (s.data.map Char.toLower)

/-- Model of JS String.prototype.trim: drop leading and trailing whitespace. -/
def jsTrim (s : String) : String :=
  String.mk (((s.data.dropWhile isJsWs).reverse.dropWhile isJsWs).reverse)

/-- Does the string contain any Devanagari code point
(the JS test /[ऀ-ॿ]/.test). -/
def containsDev (s : String) : Bool := s.data.any isDevChar

/-- Count of Devanagari code points, the JS (s.match(/[ऀ-ॿ]/g) || []).length. -/
def countDev (s : String) : ℕ := s.data.countP isDevChar

/-! ## Digit mapper (marathiDigits module) -/

/-- The MARATHI_TO_ENGLISH lookup on one character: a Devanagari digit maps
to its ASCII digit, every other character passes through. -/
def marathiToEnglishChar : Char → Char
  | '०' => '0'
  | '१' => '1'
  | '२' => '2'
  | '३' => '3'
  | '४' => '4'
  | '५' => '5'
  | '६' => '6'
  | '७' => '7'
  | '८' => '8'
  | '९' => '9'
  | c => c

/-- The ENGLISH_TO_MARATHI lookup on one character. -/
def englishToMarathiChar : Char → Char
  | '0' => '०'
  | '1' => '१'
  | '2' => '२'
  | '3' => '३'
  | '4' => '४'
  | '5' => '५'
  | '6' => '६'
  | '7' => '७'
  | '8' => '८'
  | '9' => '९'
  | c => c

/-- marathiToEnglish: per-character mapping of Devanagari digits to ASCII
digits; the source returns the input unchanged when it is empty. -/
def marathiToEnglish (s : String) : String :=
  if s = "" then s else String.mk (s.data.map marathiToEnglishChar)

/-- englishToMarathi: per-character mapping of ASCII digits to Devanagari
digits; the source returns the input unchanged when it is empty. -/
def englishToMarathi (s : String) : String :=
  if s = "" then s else String.mk (s.data.map englishToMarathiChar)

/-! ## parseFloat model and parseMarathiNumber -/

/-- A JS number as produced by parseFloat: NaN, a signed infinity, or a
finite value (modelled exactly as a rational). -/
inductive JsNum where
  | nan : JsNum
  | inf (neg : Bool) : JsNum
  | num (q : ℚ) : JsNum
deriving DecidableEq

/-- Numeric value of an ASCII digit character. -/
def digitVal (c : Char) : ℕ := c.toNat - '0'.toNat

/-- Consume a run of ASCII digits, accumulating value and count. -/
def digitsAux : List Char → ℕ → ℕ → ℕ × ℕ × List Char
  | [], v, n => (v, n, [])
  | c :: cs, v, n =>
      if isAsciiDigit c then digitsAux cs (10 * v + digitVal c) (n + 1)
      else (v, n, c :: cs)

/-- Consume an optional exponent suffix after the mantissa: a sign and at
least one digit; an incomplete exponent contributes nothing, as in JS. -/
def parseExpPart (l : List Char) : ℤ :=
  match l with
  | 'e' :: t | 'E' :: t =>
      let signAndRest : Bool × List Char :=
        match t with
        | '-' :: u => (true, u)
        | '+' :: u => (false, u)
        | u => (false, u)
      let r := digitsAux signAndRest.2 0 0
      if r.2.1 = 0 then 0
      else if signAndRest.1 then - (r.1 : ℤ) else (r.1 : ℤ)
  | _ => 0

/-- Model of JS parseFloat: skip leading whitespace, read an optional sign,
then either the literal Infinity or a decimal mantissa with optional
exponent; NaN when no digits could be read.  Trailing garbage is ignored. -/
def jsParseFloat (s : String) : JsNum :=
  let l := s.data.dropWhile isJsWs
  let signed : Bool × List Char :=
    match l with
    | '-' :: t => (true, t)
    | '+' :: t => (false, t)
    | t => (false, t)
  let neg := signed.1
  let l1 := signed.2
  if l1.take 8 = ['I', 'n', 'f', 'i', 'n', 'i', 't', 'y'] then .inf neg
  else
    let ri := digitsAux l1 0 0
    let intVal := ri.1
    let intCnt := ri.2.1
    let l2 := ri.2.2
    let rf : ℕ × ℕ × List Char :=
      match l2 with
      | '.' :: t => digitsAux t 0 0
      | t => (0, 0, t)
    let fracVal := rf.1
    let fracCnt := rf.2.1
    let l3 := rf.2.2
    if intCnt = 0 ∧ fracCnt = 0 then .nan
    else
      let mant : ℚ := (intVal : ℚ) + (fracVal : ℚ) / ((10 : ℚ) ^ fracCnt)
      let e : ℤ := parseExpPart l3
      .num ((if neg then - mant else mant) * (10 : ℚ) ^ e)

/-- parseMarathiNumber: empty input gives 0; otherwise trim, convert
Devanagari digits to ASCII, strip every comma, parseFloat, and replace a
NaN result by 0. -/
def parseMarathiNumber (text : String) : JsNum :=
  if text = "" then .num 0
  else
    match jsParseFloat (String.mk ((marathiToEnglish (jsTrim text)).data.filter (fun c => c ≠ ','))) with
    | .nan => .num 0
    | v => v

/-! ## Amount in words (numberToWords, amountToWordsWithPaise) -/

/-- The word table a of numberToWords: irregular words for 0 to 19. -/
def onesWords : List String :=
  ["", "One", "Two", "Three", "Four", "Five", "Six", "Seven", "Eight", "Nine",
   "Ten", "Eleven", "Twelve", "Thirteen", "Fourteen", "Fifteen", "Sixteen",
   "Seventeen", "Eighteen", "Nineteen"]

/-- The word table b of numberToWords: multiples of ten. -/
def tensWords : List String :=
  ["", "", "Twenty", "Thirty", "Forty", "Fifty", "Sixty", "Seventy", "Eighty", "Ninety"]

/-- The inner helper inWords of numberToWords, spelling a value below 100;
array indexing out of the table range is modelled as the empty string. -/
def inWords (n : ℤ) : String :=
  if 19 < n then
    tensWords.getD (Int.fdiv n 10).toNat "" ++
      (if Int.tmod n 10 ≠ 0 then " " ++ onesWords.getD (Int.tmod n 10).toNat "" else "")
  else if 0 < n then onesWords.getD n.toNat ""
  else ""

/-- The result accumulation of numberToWords over the five group values:
each non-zero group appends its words and scale word, the remainder under
100 is preceded by the word and when something was already emitted, and
the result is trimmed. -/
def groupWords (crore lakh thousand hundred rest : ℤ) : String :=
  let r1 := if crore ≠ 0 then "" ++ inWords crore ++ " Crore " else ""
  let r2 := if lakh ≠ 0 then r1 ++ inWords lakh ++ " Lakh " else r1
  let r3 := if thousand ≠ 0 then r2 ++ inWords thousand ++ " Thousand " else r2
  let r4 := if hundred ≠ 0 then r3 ++ onesWords.getD hundred.toNat "" ++ " Hundred " else r3
  let r5 := if rest ≠ 0 then (if r4 ≠ "" then r4 ++ "and " else r4) ++ inWords rest ++ " " else r4
  jsTrim r5

/-- numberToWords: zero words as Zero, values above 999999999 return the
sentinel, otherwise the crore, lakh, thousand, hundred and remainder groups
are extracted with floor and the JS % operator and spelled highest first.
The isNaN guard of the source has no counterpart because the rational
model has no NaN. -/
def numberToWords (num : ℚ) : String :=
  if num = 0 then "Zero"
  else if 999999999 < num then "Amount too large"
  else
    groupWords
      (jsFloor (num / 10000000))
      (jsFloor (jsMod (num / 100000) 100))
      (jsFloor (jsMod (num / 1000) 100))
      (jsFloor (jsMod (num / 100) 10))
      (jsFloor (jsMod num 100))

/-- The rupee component of amountToWordsWithPaise: Math.floor(amount). -/
def rupeesPart (amount : ℚ) : ℤ := jsFloor amount

/-- The paise component of amountToWordsWithPaise:
Math.round((amount - rupees) * 100). -/
def paisePart (amount : ℚ) : ℤ := jsRound ((amount - (rupeesPart amount : ℚ)) * 100)

/-- amountToWordsWithPaise: spell the rupee part, append Rupees when the
words are non-empty, append the paise part when positive, and always end
with the word only. -/
def amountToWordsWithPaise (amount : ℚ) : String :=
  let words := numberToWords (rupeesPart amount : ℚ)
  let words1 := if words ≠ "" then words ++ " Rupees" else words
  let words2 :=
    if 0 < paisePart amount then
      words1 ++ " and " ++ numberToWords (paisePart amount : ℚ) ++ " Paise"
    else words1
  words2 ++ " only"

/-! ## Invoice calculation model (create-invoice page) -/

/-- A rupees and paise pair with integer components, as produced by the
row-total and total-sales calculations. -/
structure Amount where
  rs : ℤ
  paise : ℤ
deriving DecidableEq

/-- A rupees and paise pair whose paise component is a JS number, as
produced by the expense and net-balance calculations (their inputs are
parsed floats, so the components need not be integral). -/
structure AmountQ where
  rs : ℤ
  paise : ℚ
deriving DecidableEq

/-- Parsed numeric inputs of one sales row: the Piece, Crates and
per-unit-price fields (unset fields parse to 0). -/
structure RowInput where
  piece : ℚ
  crates : ℚ
  price : ℚ

/-- The result shape of calculateNetBalance: a nullable amount and the
isNegative flag. -/
structure NetBalanceResult where
  amount : Option AmountQ
  isNegative : Bool
deriving DecidableEq

/-- calculateRowTotal: quantity is Piece when positive, else Crates; when
quantity or price is zero the row total is null; otherwise the product is
rounded to integer paise and split into rupees and remainder. -/
def calculateRowTotal (r : RowInput) : Option Amount :=
  let quantity := if 0 < r.piece then r.piece else r.crates
  if quantity = 0 ∨ r.price = 0 then none
  else
    let totalPaise := jsRound (quantity * r.price * 100)
    some ⟨Int.fdiv totalPaise 100, Int.tmod totalPaise 100⟩

/-- The paise accumulator of calculateTotalSales: rows with a null total
are skipped, the others contribute rs * 100 + paise. -/
def salesPaiseSum (rows : List RowInput) : ℤ :=
  rows.foldl
    (fun acc r =>
      match calculateRowTotal r with
      | some t => acc + (t.rs * 100 + t.paise)
      | none => acc)
    0

/-- calculateTotalSales: null when the paise sum is exactly zero, else the
sum split into rupees and paise. -/
def calculateTotalSales (rows : List RowInput) : Option Amount :=
  let totalPaise := salesPaiseSum rows
  if totalPaise = 0 then none
  else some ⟨Int.fdiv totalPaise 100, Int.tmod totalPaise 100⟩

/-- The paise accumulator of calculateTotalExpenses over the expense and
empty rows, each contributing rs * 100 + paise; the loop over the thirteen
fixed field pairs is modelled as a fold over a list of parsed pairs. -/
def expensesPaiseSum (rows : List (ℚ × ℚ)) : ℚ :=
  rows.foldl (fun acc p => acc + (p.1 * 100 + p.2)) 0

/-- calculateTotalExpenses: always an amount (never null), the summed
paise split by Math.floor and the JS % operator. -/
def calculateTotalExpenses (rows : List (ℚ × ℚ)) : AmountQ :=
  let totalPaise := expensesPaiseSum rows
  ⟨jsFloor (totalPaise / 100), jsMod totalPaise 100⟩

/-- calculateNetBalance: null amount and false flag when total sales is
null; otherwise sales minus expenses in paise, the absolute value split
into rupees and paise, and isNegative exactly when the difference is
negative. -/
def calculateNetBalance (rows : List RowInput) (expenseRows : List (ℚ × ℚ)) :
    NetBalanceResult :=
  match calculateTotalSales rows with
  | none => ⟨none, false⟩
  | some s =>
      let e := calculateTotalExpenses expenseRows
      let salesPaise : ℚ := ((s.rs * 100 + s.paise : ℤ) : ℚ)
      let expensesPaise : ℚ := (e.rs : ℚ) * 100 + e.paise
      let netPaise := salesPaise - expensesPaise
      ⟨some ⟨jsFloor (|netPaise| / 100), jsMod |netPaise| 100⟩, decide (netPaise < 0)⟩

/-! ## GST derivation (InvoicePreview) -/

/-- The two tax regimes selectable in the preview. -/
inductive GstType where
  | IGST : GstType
  | CGST_SGST : GstType

/-- The tax values derived in the preview body: rates, the three tax
amounts and the net payable. -/
structure GstResult where
  cgstRate : ℚ
  sgstRate : ℚ
  igstRate : ℚ
  cgst : ℚ
  sgst : ℚ
  igst : ℚ
  net : ℚ
deriving DecidableEq

/-- The tax block of the preview: IGST applies the whole rate; otherwise
the rate is halved, each half is applied to the taxable amount and rounded
to two decimals independently, and the net payable is the taxable amount
plus both rounded halves, rounded again. -/
def gstCompute (gstType : GstType) (taxableAmount gstRate : ℚ) : GstResult :=
  match gstType with
  | .IGST =>
      let igstVal := toFixed2 (taxableAmount * (gstRate / 100))
      ⟨0, 0, gstRate, 0, 0, igstVal, toFixed2 (taxableAmount + igstVal)⟩
  | .CGST_SGST =>
      let cgstRateNum := gstRate / 2
      let sgstRateNum := gstRate / 2
      let cgstVal := toFixed2 (taxableAmount * (cgstRateNum / 100))
      let sgstVal := toFixed2 (taxableAmount * (sgstRateNum / 100))
      ⟨cgstRateNum, sgstRateNum, 0, cgstVal, sgstVal, 0,
        toFixed2 (taxableAmount + cgstVal + sgstVal)⟩

/-! ## Local phonetic transliteration (phoneticTransliteration module) -/

/-- The single-character arm of the phonetic scanner: vowels, consonants,
and pass-through for punctuation, digits and unknown characters.  The
scanner matches on the lowercased character but copies the original
character through when no rule applies. -/
def phonSingle (c orig : Char) : String :=
  if c = 'a' then "अ"
  else if c = 'i' then "इ"
  else if c = 'u' then "उ"
  else if c = 'e' then "ए"
  else if c = 'o' then "ओ"
  else if c = 'm' then "म"
  else if c = 'b' then "ब"
  else if c = 'd' then "द"
  else if c = 'l' then "ल"
  else if c = 'h' then "ह"
  else if c = 'k' then "क"
  else if c = 'r' then "र"
  else if c = 's' then "स"
  else if c = 'c' then "च"
  else if c = 't' then "त"
  else if c = 'p' then "प"
  else if c = 'g' then "ग"
  else if c = 'j' then "ज"
  else if c = 'n' then "न"
  else if c = 'y' then "य"
  else if c = 'v' ∨ c = 'w' then "व"
  else String.mk [orig]

/-- The scanning loop of phoneticTransliterate over pairs of lowercased
and original characters: two-character patterns are tried first (the
ai-at-end rule fires only when nothing follows), then the single-character
rules. -/
def phonGo : List (Char × Char) → String
  | [] => ""
  | (c, o) :: rest =>
      match rest with
      | [] => phonSingle c o
      | (c2, o2) :: rest2 =>
          if c = 'm' ∧ c2 = 'b' then "म्ब" ++ phonGo rest2
          else if c = 'a' ∧ c2 = 'i' ∧ rest2 = [] then "ई" ++ phonGo rest2
          else if c = 'a' ∧ c2 = 'i' then "ऐ" ++ phonGo rest2
          else if c = 'l' ∧ c2 = 'l' then "ल्ल" ++ phonGo rest2
          else if c = 's' ∧ c2 = 'k' then "स्क" ++ phonGo rest2
          else if c = 's' ∧ c2 = 'h' then "श" ++ phonGo rest2
          else if c = 'c' ∧ c2 = 'h' then "च" ++ phonGo rest2
          else if c = 't' ∧ c2 = 'h' then "थ" ++ phonGo rest2
          else if c = 'k' ∧ c2 = 'h' then "ख" ++ phonGo rest2
          else if c = 'g' ∧ c2 = 'h' then "घ" ++ phonGo rest2
          else if c = 'b' ∧ c2 = 'h' then "भ" ++ phonGo rest2
          else if c = 'p' ∧ c2 = 'h' then "फ" ++ phonGo rest2
          else if c = 'd' ∧ c2 = 'h' then "ध" ++ phonGo rest2
          else if c = 'j' ∧ c2 = 'h' then "झ" ++ phonGo rest2
          else phonSingle c o ++ phonGo ((c2, o2) :: rest2)

/-- phoneticTransliterate: text already containing Devanagari is returned
unchanged, otherwise the scanner runs over the lowercased text (keeping
the original characters for pass-through). -/
def phoneticTransliterate (text : String) : String :=
  if text = "" then text
  else if containsDev text then text
  else phonGo ((text.data.map Char.toLower).zip text.data)

/-! ## Aksharamukha-backed transliteration (transliterate module) -/

/-- An external transliteration attempt: the processAsync capability of the
loaded Aksharamukha instance, as a pure oracle from the source format, the
input text and the nativize flag to an optional result (none models a
thrown exception). -/
def Oracle : Type := String → String → Bool → Option String

/-- The CORRECTION_DICTIONARY of the transliterate module. -/
def correctionDictionary (s : String) : Option String :=
  if s = "mumbai" ∨ s = "Mumbai" ∨ s = "MUMBAI" then some "मुंबई"
  else if s = "delhi" ∨ s = "Delhi" ∨ s = "DELHI" then some "दिल्ली"
  else if s = "bhaskar" ∨ s = "Bhaskar" ∨ s = "BHASKAR" then some "भास्कर"
  else none

/-- One entry of the attempt list of transliterateWord: an input format
name and the nativize option. -/
structure TwAttempt where
  format : String
  nativize : Bool

/-- The seven attempts of transliterateWord, in source order. -/
def twAttempts : List TwAttempt :=
  [⟨"IAST", true⟩, ⟨"ITRANS", true⟩, ⟨"autodetect", true⟩, ⟨"Latin", true⟩,
   ⟨"IAST", false⟩, ⟨"ITRANS", false⟩, ⟨"autodetect", false⟩]

/-- The attempt loop of transliterateWord.  The state is the pair of
bestResult and transliterated.  A thrown attempt is skipped; an accepted
result must be truthy, differ from the preprocessed input and contain a
Devanagari code point; the state is updated when the candidate has more
Devanagari characters or the best so far is still the original word; the
loop breaks after a nativize attempt that yielded Devanagari output. -/
def twLoop (oracle : Oracle) (word preprocessed : String) :
    List TwAttempt → String × String → String × String
  | [], st => st
  | att :: rest, st =>
      match oracle att.format preprocessed att.nativize with
      | none => twLoop oracle word preprocessed rest st
      | some r =>
          if r ≠ "" ∧ r ≠ preprocessed ∧ containsDev r then
            let mc := countDev r
            let bc := countDev st.1
            let st2 := if bc < mc ∨ st.1 = word then (r, r) else st
            if att.nativize ∧ 0 < mc then st2
            else twLoop oracle word preprocessed rest st2
          else twLoop oracle word preprocessed rest st

/-- transliterateWord: the correction dictionary is consulted first, on the
lowercased and then the original spelling, and a hit is returned at once;
without a loaded backend the word is returned unchanged; otherwise the
attempt loop runs on the lowercased word and the best Devanagari-bearing
result, if any, is returned. -/
def transliterateWord (oracle : Option Oracle) (word : String) : String :=
  let lowerWord := jsToLower word
  match correctionDictionary lowerWord with
  | some v => v
  | none =>
    match correctionDictionary word with
    | some v => v
    | none =>
      match oracle with
      | none => word
      | some orc =>
          let preprocessed := jsToLower word
          let st := twLoop orc word preprocessed twAttempts (word, word)
          if st.1 ≠ word ∧ containsDev st.1 then st.1 else st.2

/-- The tokenizer of the word-by-word path: the JS split on the capturing
regex of whitespace runs or single punctuation characters, which yields the
strictly alternating piece, separator, piece, ... list including empty
pieces.  The accumulator holds the current token in reverse and the flag
says whether that token is a whitespace separator run. -/
def splitKeepGo : List Char → List Char → Bool → List String
  | [], acc, inWs =>
      if inWs then [String.mk acc.reverse, ""] else [String.mk acc.reverse]
  | c :: rest, acc, inWs =>
      if isJsWs c then
        if inWs then splitKeepGo rest (c :: acc) true
        else String.mk acc.reverse :: splitKeepGo rest [c] true
      else if isSepPunct c then
        if inWs then
          String.mk acc.reverse :: "" :: String.mk [c] :: splitKeepGo rest [] false
        else String.mk acc.reverse :: String.mk [c] :: splitKeepGo rest [] false
      else
        if inWs then String.mk acc.reverse :: splitKeepGo rest [c] false
        else splitKeepGo rest (c :: acc) false

/-- Split with kept separators, the JS text.split of the tokenizer regex. -/
def jsSplitKeep (s : String) : List String := splitKeepGo s.data [] false

/-- Test for a token of only whitespace (possibly empty). -/
def isAllWsOrEmpty (s : String) : Bool := s.data.all isJsWs

/-- Test for a non-empty token of only separator punctuation. -/
def isPunctRun (s : String) : Bool := s ≠ "" && s.data.all isSepPunct

/-- Test for a non-empty token of only ASCII digits. -/
def isDigitRun (s : String) : Bool := s ≠ "" && s.data.all isAsciiDigit

/-- The per-token step of the word-by-word path: whitespace, punctuation,
already-Devanagari and pure-number tokens pass through, everything else is
sent to transliterateWord with a loaded backend. -/
def transliteratePiece (oracle : Oracle) (word : String) : String :=
  if isAllWsOrEmpty word || isPunctRun word then word
  else if containsDev word then word
  else if isDigitRun (jsTrim word) then word
  else transliterateWord (some oracle) (jsTrim word)

/-- transliterateToMarathiAsync: empty and already-Devanagari text is
returned unchanged; a backend of none models both the non-browser
environment and a failed or unavailable Aksharamukha load, in which case
the source returns the text as is; with a loaded backend the whole phrase
is first attempted in IAST on the lowercased text, and when that does not
yield an acceptable Devanagari result the text is tokenized and each piece
transliterated independently. -/
def transliterateToMarathiAsync (backend : Option Oracle) (text : String) : String :=
  if text = "" then text
  else if containsDev text then text
  else
    match backend with
    | none => text
    | some oracle =>
        let preprocessed := text
        let lowerAll := jsToLower preprocessed
        let wordPath := String.join ((jsSplitKeep preprocessed).map (transliteratePiece oracle))
        match oracle "IAST" lowerAll true with
        | some w =>
            if w ≠ "" ∧ w ≠ lowerAll ∧ containsDev w ∧ 0 < w.length then w
            else wordPath
        | none => wordPath

/-- Absence of the capital letter A in a string; the sentinel string
starts with one, while no word emitted by numberToWords contains one. -/
@[reducible] def NotA (s : String) : Prop := 'A' ∉ s.data

/-! ## Helper lemmas -/

theorem data_append (s t : String) : (s ++ t).data = s.data ++ t.data := rfl

theorem mem_of_mem_dropWhile {α : Type} {p : α → Bool} {a : α} :
    ∀ {l : List α}, a ∈ l.dropWhile p → a ∈ l := by
  intro l
  induction l with
  | nil => intro h; exact absurd h (by simp [List.dropWhile])
  | cons x t ih =>
      intro h
      rw [List.dropWhile] at h
      cases hp : p x with
      | true => rw [hp] at h; exact List.mem_cons_of_mem x (ih h)
      | false => rw [hp] at h; exact h

theorem notA_trim {s : String} (h : NotA s) : NotA (jsTrim s) := by
  intro hmem
  apply h
  unfold jsTrim at hmem
  have h1 : 'A' ∈ ((s.data.dropWhile isJsWs).reverse.dropWhile isJsWs).reverse := hmem
  rw [List.mem_reverse] at h1
  have h2 := mem_of_mem_dropWhile h1
  rw [List.mem_reverse] at h2
  exact mem_of_mem_dropWhile h2

theorem notA_append {s t : String} (hs : NotA s) (ht : NotA t) : NotA (s ++ t) := by
  intro hmem
  rw [data_append, List.mem_append] at hmem
  rcases hmem with h | h
  · exact hs h
  · exact ht h

theorem notA_getD {l : List String} (i : ℕ) (h : ∀ x ∈ l, NotA x) :
    NotA (l.getD i "") := by
  rw [List.getD_eq_get?]
  cases hx : l.get? i with
  | none => intro hc; exact absurd hc (by decide)
  | some x => exact h x (List.get?_mem hx)

theorem notA_onesWords : ∀ x ∈ onesWords, NotA x := by decide

theorem notA_tensWords : ∀ x ∈ tensWords, NotA x := by decide

theorem notA_inWords (n : ℤ) : NotA (inWords n) := by
  unfold inWords
  split
  · apply notA_append
    · exact notA_getD _ notA_tensWords
    · split
      · exact notA_append (by decide) (notA_getD _ notA_onesWords)
      · decide
  · split
    · exact notA_getD _ notA_onesWords
    · decide

theorem notA_empty : NotA "" := by decide

theorem notA_ws : NotA " " := by decide

theorem notA_and : NotA "and " := by decide

theorem notA_crore : NotA " Crore " := by decide

theorem notA_lakh : NotA " Lakh " := by decide

theorem notA_thousand : NotA " Thousand " := by decide

theorem notA_hundredStr : NotA " Hundred " := by decide

theorem notA_stepIf (cond : Prop) [Decidable cond] {a b : String}
    (ha : NotA a) (hb : NotA b) : NotA (if cond then a else b) := by
  split <;> assumption

theorem notA_groupWords (c l t h r : ℤ) : NotA (groupWords c l t h r) := by
  unfold groupWords
  apply notA_trim
  have H1 : NotA (if c ≠ 0 then "" ++ inWords c ++ " Crore " else "") :=
    notA_stepIf _ (notA_append (notA_append notA_empty (notA_inWords c)) notA_crore) notA_empty
  have H2 := notA_stepIf (l ≠ 0) (notA_append (notA_append H1 (notA_inWords l)) notA_lakh) H1
  have H3 := notA_stepIf (t ≠ 0) (notA_append (notA_append H2 (notA_inWords t)) notA_thousand) H2
  have H4 := notA_stepIf (h ≠ 0)
    (notA_append (notA_append H3 (notA_getD h.toNat notA_onesWords)) notA_hundredStr) H3
  exact notA_stepIf (r ≠ 0)
    (notA_append (notA_append (notA_stepIf _ (notA_append H4 notA_and) H4) (notA_inWords r)) notA_ws)
    H4

theorem ne_sentinel_of_notA {s : String} (h : NotA s) : s ≠ "Amount too large" := by
  intro he
  apply h
  rw [he]
  decide

theorem jsFloor_eq (q : ℚ) : jsFloor q = ⌊q⌋ := Rat.floor_def.symm

theorem jsTrunc_eq_floor {q : ℚ} (h : 0 ≤ q) : jsTrunc q = ⌊q⌋ := by
  unfold jsTrunc
  rw [if_pos h, jsFloor_eq]

theorem jsMod_recompose {a : ℚ} (h : 0 ≤ a) :
    (jsFloor (a / 100) : ℚ) * 100 + jsMod a 100 = a := by
  unfold jsMod
  rw [jsTrunc_eq_floor (by positivity), jsFloor_eq]
  ring

theorem jsMod_natCast (N : ℕ) :
    jsMod (N : ℚ) 100 = ((N % 100 : ℕ) : ℚ) ∧ jsFloor ((N : ℚ) / 100) = ((N / 100 : ℕ) : ℤ) := by
  have hfloor : ⌊((N : ℚ) / 100)⌋ = ((N / 100 : ℕ) : ℤ) := by
    exact_mod_cast Rat.floor_natCast_div_natCast N 100
  constructor
  · unfold jsMod
    rw [jsTrunc_eq_floor (by positivity), hfloor]
    have hdm : ((N : ℚ)) = 100 * ((N / 100 : ℕ) : ℚ) + ((N % 100 : ℕ) : ℚ) := by
      exact_mod_cast (Nat.div_add_mod N 100).symm
    have hc : (((N / 100 : ℕ) : ℤ) : ℚ) = ((N / 100 : ℕ) : ℚ) := Int.cast_natCast _
    rw [hc]
    linarith
  · rw [jsFloor_eq]
    exact hfloor

theorem expensesPaiseSum_natCast :
    ∀ (rows : List (ℚ × ℚ)), (∀ p ∈ rows, ∃ a b : ℕ, p.1 = (a : ℚ) ∧ p.2 = (b : ℚ)) →
      ∃ N : ℕ, expensesPaiseSum rows = (N : ℚ) := by
  suffices haux : ∀ (rows : List (ℚ × ℚ)) (acc : ℕ),
      (∀ p ∈ rows, ∃ a b : ℕ, p.1 = (a : ℚ) ∧ p.2 = (b : ℚ)) →
      ∃ N : ℕ, rows.foldl (fun acc p => acc + (p.1 * 100 + p.2)) (acc : ℚ) = (N : ℚ) by
    intro rows h
    have := haux rows 0 h
    simpa [expensesPaiseSum] using this
  intro rows
  induction rows with
  | nil => intro acc _; exact ⟨acc, rfl⟩
  | cons p t ih =>
      intro acc h
      obtain ⟨a, b, ha, hb⟩ := h p (List.mem_cons_self p t)
      have hstep : (acc : ℚ) + (p.1 * 100 + p.2) = ((acc + (a * 100 + b) : ℕ) : ℚ) := by
        rw [ha, hb]; push_cast; ring
      have ht : ∀ q ∈ t, ∃ a b : ℕ, q.1 = (a : ℚ) ∧ q.2 = (b : ℚ) :=
        fun q hq => h q (List.mem_cons_of_mem p hq)
      obtain ⟨N, hN⟩ := ih (acc + (a * 100 + b)) ht
      refine ⟨N, ?_⟩
      rw [List.foldl_cons, hstep]
      exact hN

/-! ## Claim theorems -/

/-- C3 counterexample: the paise component computed by
amountToWordsWithPaise is 100, not at most 99, at the non-negative amount
1.999, and the emitted words show the out-of-range paise value. -/
theorem claim3_counterexample :
    paisePart (1999/1000 : ℚ) = 100 ∧
    ¬ paisePart (1999/1000 : ℚ) ≤ 99 ∧
    (0 : ℚ) ≤ 1999/1000 ∧
    amountToWordsWithPaise (1999/1000 : ℚ) = "One Rupees and One Hundred Paise only" := by
  refine ⟨by with_unfolding_all decide, by with_unfolding_all decide, by norm_num,
    by with_unfolding_all decide⟩

/-- C3 amended: the expense calculation returns an integer paise component
in the range 0 to 99 whenever the parsed row inputs are natural numbers;
the amount-to-words decomposition yields a paise component in the range
0 to 100 (the upper bound 100 is attained, so the component is not always
at most 99). -/
theorem claim3_paise_ranges :
    (∀ rows : List (ℚ × ℚ), (∀ p ∈ rows, ∃ a b : ℕ, p.1 = (a : ℚ) ∧ p.2 = (b : ℚ)) →
      ∃ m : ℕ, (calculateTotalExpenses rows).paise = (m : ℚ) ∧ m < 100) ∧
    (∀ amount : ℚ, 0 ≤ amount → 0 ≤ paisePart amount ∧ paisePart amount ≤ 100) := by
  constructor
  · intro rows h
    obtain ⟨N, hN⟩ := expensesPaiseSum_natCast rows h
    refine ⟨N % 100, ?_, Nat.mod_lt N (by norm_num)⟩
    show jsMod (expensesPaiseSum rows) 100 = _
    rw [hN]
    exact (jsMod_natCast N).1
  · intro amount _
    have hfr : (amount - (rupeesPart amount : ℚ)) = Int.fract amount := by
      rw [show rupeesPart amount = ⌊amount⌋ from jsFloor_eq amount]
      rfl
    have h0 : 0 ≤ Int.fract amount := Int.fract_nonneg amount
    have h1 : Int.fract amount < 1 := Int.fract_lt_one amount
    unfold paisePart jsRound
    rw [jsFloor_eq, hfr]
    constructor
    · apply Int.le_floor.mpr
      push_cast
      nlinarith
    · have : ⌊Int.fract amount * 100 + 1/2⌋ < 101 := by
        apply Int.floor_lt.mpr
        push_cast
        nlinarith
      omega

/-- C3 witness: instantiation of the amended claim at a concrete expense
row list and a concrete amount. -/
theorem claim3_witness :
    (∃ m : ℕ, (calculateTotalExpenses [((3 : ℚ), (250 : ℚ))]).paise = (m : ℚ) ∧ m < 100) ∧
    (0 ≤ paisePart (2 : ℚ) ∧ paisePart (2 : ℚ) ≤ 100) := by
  constructor
  · exact claim3_paise_ranges.1 [((3 : ℚ), (250 : ℚ))]
      (by
        intro p hp
        simp only [List.mem_singleton] at hp
        subst hp
        exact ⟨3, 250, by norm_num, by norm_num⟩)
  · exact claim3_paise_ranges.2 2 (by norm_num)

/-- C4: a row total is null whenever the effective quantity or the price
is zero; quantity 5 at unit price 10 yields fifty rupees zero paise; total
sales of no rows is null, and is null whenever the summed paise is exactly
zero; total expenses of no rows is the zero amount, not null. -/
theorem claim4_blank_vs_zero :
    (∀ r : RowInput, ((if 0 < r.piece then r.piece else r.crates) = 0 ∨ r.price = 0) →
      calculateRowTotal r = none) ∧
    calculateRowTotal ⟨5, 0, 10⟩ = some ⟨50, 0⟩ ∧
    calculateTotalSales [] = none ∧
    (∀ rows : List RowInput, salesPaiseSum rows = 0 → calculateTotalSales rows = none) ∧
    calculateTotalExpenses [] = ⟨0, 0⟩ := by
  refine ⟨?_, by with_unfolding_all decide, by with_unfolding_all decide, ?_,
    by with_unfolding_all decide⟩
  · intro r h
    unfold calculateRowTotal
    rw [if_pos h]
  · intro rows h
    unfold calculateTotalSales
    rw [if_pos h]

/-- C4 witness: instantiation at a row with zero quantity and at a row
list whose paise sum is zero. -/
theorem claim4_witness :
    calculateRowTotal ⟨0, 0, 100⟩ = none ∧ calculateTotalSales [⟨0, 0, 5⟩] = none := by
  constructor
  · exact claim4_blank_vs_zero.1 ⟨0, 0, 100⟩ (by norm_num)
  · exact claim4_blank_vs_zero.2.2.2.1 [⟨0, 0, 5⟩] (by with_unfolding_all decide)

set_option maxRecDepth 4000 in
/-- C5: in CGST plus SGST mode each half of the rate is applied to the
taxable base and rounded to two decimals independently, and the net
payable is the base plus both rounded halves, rounded after summation; at
base 1000 and rate 18 this gives 90, 90 and 1180. -/
theorem claim5_gst_split :
    (∀ b r : ℚ,
      (gstCompute .CGST_SGST b r).cgst = toFixed2 (b * ((r / 2) / 100)) ∧
      (gstCompute .CGST_SGST b r).sgst = toFixed2 (b * ((r / 2) / 100)) ∧
      (gstCompute .CGST_SGST b r).net =
        toFixed2 (b + (gstCompute .CGST_SGST b r).cgst + (gstCompute .CGST_SGST b r).sgst)) ∧
    gstCompute .CGST_SGST 1000 18 = ⟨9, 9, 0, 90, 90, 0, 1180⟩ := by
  refine ⟨fun b r => ⟨rfl, rfl, rfl⟩, by with_unfolding_all decide⟩

/-- C6: net balance is the null result when total sales is null; otherwise
its flag is set exactly when sales are below expenses in paise and its
amount reconstructs the absolute paise difference; the concrete sales of
fifty rupees against expenses of seventy rupees yield the negative flag
and twenty rupees. -/
theorem claim6_net_balance :
    (∀ (rows : List RowInput) (expenseRows : List (ℚ × ℚ)),
      calculateTotalSales rows = none →
      calculateNetBalance rows expenseRows = ⟨none, false⟩) ∧
    (∀ (rows : List RowInput) (expenseRows : List (ℚ × ℚ)) (s : Amount),
      calculateTotalSales rows = some s →
      (((calculateNetBalance rows expenseRows).isNegative = true ↔
        ((s.rs * 100 + s.paise : ℤ) : ℚ) <
          ((calculateTotalExpenses expenseRows).rs : ℚ) * 100 +
            (calculateTotalExpenses expenseRows).paise) ∧
       ∃ amt : AmountQ, (calculateNetBalance rows expenseRows).amount = some amt ∧
         (amt.rs : ℚ) * 100 + amt.paise =
           |((s.rs * 100 + s.paise : ℤ) : ℚ) -
             (((calculateTotalExpenses expenseRows).rs : ℚ) * 100 +
               (calculateTotalExpenses expenseRows).paise)|)) ∧
    calculateNetBalance [⟨5, 0, 10⟩] [((70 : ℚ), (0 : ℚ))] = ⟨some ⟨20, 0⟩, true⟩ := by
  refine ⟨?_, ?_, by with_unfolding_all decide⟩
  · intro rows expenseRows h
    unfold calculateNetBalance
    rw [h]
  · intro rows expenseRows s h
    unfold calculateNetBalance
    rw [h]
    constructor
    · simp only [decide_eq_true_iff]
      exact sub_neg
    · refine ⟨_, rfl, ?_⟩
      exact jsMod_recompose (abs_nonneg _)

/-- C6 witness: instantiation of both universally quantified parts at
concrete row lists. -/
theorem claim6_witness :
    calculateNetBalance [] [] = ⟨none, false⟩ ∧
    ((calculateNetBalance [⟨5, 0, 10⟩] []).isNegative = true ↔
      (((50 : ℤ) * 100 + 0 : ℤ) : ℚ) <
        ((calculateTotalExpenses ([] : List (ℚ × ℚ))).rs : ℚ) * 100 +
          (calculateTotalExpenses ([] : List (ℚ × ℚ))).paise) := by
  constructor
  · exact claim6_net_balance.1 [] [] (by with_unfolding_all decide)
  · exact (claim6_net_balance.2.1 [⟨5, 0, 10⟩] [] ⟨50, 0⟩ (by with_unfolding_all decide)).1

/-- C7: inside the documented ceiling the words expansion never returns
the sentinel string, and above the ceiling numberToWords returns exactly
the sentinel string rather than expanding. -/
theorem claim7_too_large_ceiling :
    (∀ q : ℚ, 0 ≤ q → q ≤ 999999999 → numberToWords q ≠ "Amount too large") ∧
    (∀ q : ℚ, 999999999 < q → numberToWords q = "Amount too large") := by
  constructor
  · intro q _ h1
    unfold numberToWords
    by_cases hz : q = 0
    · rw [if_pos hz]; decide
    · rw [if_neg hz, if_neg (not_lt.mpr h1)]
      exact ne_sentinel_of_notA (notA_groupWords _ _ _ _ _)
  · intro q h
    unfold numberToWords
    rw [if_neg (by intro hz; rw [hz] at h; norm_num at h), if_pos h]

/-- C7 witness: instantiation at 3 and at ten billion. -/
theorem claim7_witness :
    numberToWords (3 : ℚ) ≠ "Amount too large" ∧
    numberToWords (10000000000 : ℚ) = "Amount too large" := by
  constructor
  · exact claim7_too_large_ceiling.1 3 (by norm_num) (by norm_num)
  · exact claim7_too_large_ceiling.2 10000000000 (by norm_num)

theorem marathiToEnglishChar_id {c : Char} (h : c ∉ devanagariDigits) :
    marathiToEnglishChar c = c := by
  unfold marathiToEnglishChar
  split
  all_goals first | rfl | exact absurd (by decide) h

theorem marathiToEnglishChar_out (c : Char) : marathiToEnglishChar c ∉ devanagariDigits := by
  unfold marathiToEnglishChar
  split
  all_goals first | decide | (intro hc; simp only [devanagariDigits] at hc; simp_all)

theorem englishToMarathiChar_id {c : Char} (h : c ∉ asciiDigits) :
    englishToMarathiChar c = c := by
  unfold englishToMarathiChar
  split
  all_goals first | rfl | exact absurd (by decide) h

theorem englishToMarathiChar_out (c : Char) : englishToMarathiChar c ∉ asciiDigits := by
  unfold englishToMarathiChar
  split
  all_goals first | decide | (intro hc; simp only [asciiDigits] at hc; simp_all)

theorem marathiToEnglishChar_idem (c : Char) :
    marathiToEnglishChar (marathiToEnglishChar c) = marathiToEnglishChar c :=
  marathiToEnglishChar_id (marathiToEnglishChar_out c)

theorem englishToMarathiChar_idem (c : Char) :
    englishToMarathiChar (englishToMarathiChar c) = englishToMarathiChar c :=
  englishToMarathiChar_id (englishToMarathiChar_out c)

theorem digitChar_roundtrip (c : Char) :
    englishToMarathiChar (marathiToEnglishChar (englishToMarathiChar c)) =
      englishToMarathiChar c := by
  by_cases hc : c ∈ asciiDigits
  · simp only [asciiDigits] at hc
    fin_cases hc <;> decide
  · rw [englishToMarathiChar_id hc]
    by_cases hd : c ∈ devanagariDigits
    · simp only [devanagariDigits] at hd
      fin_cases hd <;> decide
    · rw [marathiToEnglishChar_id hd, englishToMarathiChar_id hc]

theorem marathiToEnglish_map (s : String) :
    marathiToEnglish s = String.mk (s.data.map marathiToEnglishChar) := by
  unfold marathiToEnglish
  split
  · next h => rw [h]; rfl
  · rfl

theorem englishToMarathi_map (s : String) :
    englishToMarathi s = String.mk (s.data.map englishToMarathiChar) := by
  unfold englishToMarathi
  split
  · next h => rw [h]; rfl
  · rfl

theorem string_eta (s : String) : String.mk s.data = s := by
  cases s
  rfl

/-- C8: the exact wording of the amount in words at 1234.50 and at the
crore-spanning 10234567.89, and the suffix only on every amount. -/
theorem claim8_words_format :
    amountToWordsWithPaise (2469/2 : ℚ) =
      "One Thousand Two Hundred and Thirty Four Rupees and Fifty Paise only" ∧
    amountToWordsWithPaise (1023456789/100 : ℚ) =
      "One Crore Two Lakh Thirty Four Thousand Five Hundred and Sixty Seven Rupees and Eighty Nine Paise only" ∧
    ∀ q : ℚ, ∃ w : String, amountToWordsWithPaise q = w ++ " only" := by
  refine ⟨by with_unfolding_all decide, by with_unfolding_all decide, fun q => ⟨_, rfl⟩⟩

/-- C9: parseMarathiNumber is total and never produces NaN, and the three
documented examples hold: Devanagari digits with separators parse to the
decimal value, non-numeric text parses to 0, empty text parses to 0. -/
theorem claim9_parse_total :
    parseMarathiNumber "१२,३४५.६७" = JsNum.num (1234567/100) ∧
    parseMarathiNumber "abc" = JsNum.num 0 ∧
    parseMarathiNumber "" = JsNum.num 0 ∧
    ∀ s : String, parseMarathiNumber s ≠ JsNum.nan := by
  have hfirst : parseMarathiNumber "१२,३४५.६७" = JsNum.num (1234567/100) := by
    have hstr : String.mk
        ((marathiToEnglish (jsTrim "१२,३४५.६७")).data.filter (fun c => c ≠ ',')) =
        "12345.67" := by decide
    unfold parseMarathiNumber
    rw [if_neg (by decide), hstr]
    have hv : jsParseFloat "12345.67" = JsNum.num (1234567/100) := by
      rw [show jsParseFloat "12345.67" =
        JsNum.num ((((12345:ℕ):ℚ) + ((67:ℕ):ℚ) / (10:ℚ) ^ (2:ℕ)) * (10:ℚ) ^ (0:ℤ)) from rfl]
      norm_num
    rw [hv]
  refine ⟨hfirst, by decide, by decide, ?_⟩
  intro s
  unfold parseMarathiNumber
  split
  · exact fun h => JsNum.noConfusion h
  · cases hp : jsParseFloat
        (String.mk ((marathiToEnglish (jsTrim s)).data.filter (fun c => c ≠ ','))) with
    | nan => simp
    | inf n => simp [hp]
    | num q => simp [hp]

/-- C9 witness: instantiation of the never-NaN part at concrete text. -/
theorem claim9_witness : parseMarathiNumber "xyz" ≠ JsNum.nan :=
  claim9_parse_total.2.2.2 "xyz"

/-- C10: the Devanagari then Latin then Devanagari round trip equals a
single Devanagari conversion on every string; both digit conversions are
idempotent on every string; and each conversion leaves a string without
the respective digits unchanged. -/
theorem claim10_digit_maps :
    (∀ s : String,
      englishToMarathi (marathiToEnglish (englishToMarathi s)) = englishToMarathi s) ∧
    (∀ s : String, marathiToEnglish (marathiToEnglish s) = marathiToEnglish s) ∧
    (∀ s : String, englishToMarathi (englishToMarathi s) = englishToMarathi s) ∧
    (∀ s : String, (∀ c ∈ s.data, c ∉ devanagariDigits) → marathiToEnglish s = s) ∧
    (∀ s : String, (∀ c ∈ s.data, c ∉ asciiDigits) → englishToMarathi s = s) := by
  refine ⟨?_, ?_, ?_, ?_, ?_⟩
  · intro s
    rw [englishToMarathi_map s, marathiToEnglish_map, englishToMarathi_map]
    show String.mk (((s.data.map englishToMarathiChar).map marathiToEnglishChar).map
      englishToMarathiChar) = String.mk (s.data.map englishToMarathiChar)
    rw [List.map_map, List.map_map]
    congr 1
    apply List.map_congr_left
    intro a _
    exact digitChar_roundtrip a
  · intro s
    rw [marathiToEnglish_map s, marathiToEnglish_map]
    show String.mk ((s.data.map marathiToEnglishChar).map marathiToEnglishChar) =
      String.mk (s.data.map marathiToEnglishChar)
    rw [List.map_map]
    congr 1
    apply List.map_congr_left
    intro a _
    exact marathiToEnglishChar_idem a
  · intro s
    rw [englishToMarathi_map s, englishToMarathi_map]
    show String.mk ((s.data.map englishToMarathiChar).map englishToMarathiChar) =
      String.mk (s.data.map englishToMarathiChar)
    rw [List.map_map]
    congr 1
    apply List.map_congr_left
    intro a _
    exact englishToMarathiChar_idem a
  · intro s h
    rw [marathiToEnglish_map s]
    conv_rhs => rw [← string_eta s]
    congr 1
    calc s.data.map marathiToEnglishChar
        = s.data.map id := List.map_congr_left fun a ha => marathiToEnglishChar_id (h a ha)
      _ = s.data := List.map_id s.data
  · intro s h
    rw [englishToMarathi_map s]
    conv_rhs => rw [← string_eta s]
    congr 1
    calc s.data.map englishToMarathiChar
        = s.data.map id := List.map_congr_left fun a ha => englishToMarathiChar_id (h a ha)
      _ = s.data := List.map_id s.data

/-- C10 witness: instantiation of the pass-through parts at a concrete
letters-only string. -/
theorem claim10_witness :
    marathiToEnglish "abc" = "abc" ∧ englishToMarathi "abc" = "abc" := by
  constructor
  · exact claim10_digit_maps.2.2.2.1 "abc" (by decide)
  · exact claim10_digit_maps.2.2.2.2 "abc" (by decide)

/-- C1 counterexample: with the external backend unavailable the engine
returns the Latin input Delhi unchanged, which contains a character that
is neither a Devanagari code point nor punctuation nor whitespace, so the
result is not a Devanagari rendering of the word. -/
theorem claim1_counterexample :
    transliterateToMarathiAsync none "Delhi" = "Delhi" ∧
    ('D' ∈ (transliterateToMarathiAsync none "Delhi").data ∧
      isDevChar 'D' = false ∧ isSepPunct 'D' = false ∧ isJsWs 'D' = false) := by
  exact ⟨by decide, by decide, by decide, by decide, by decide⟩

/-- C1 amended: when the backend is unavailable the engine returns every
input unchanged (the local phonetic transducer is never invoked by the
fallback path); the phonetic transducer itself, applied directly to Delhi,
does return a non-empty string of only Devanagari code points. -/
theorem claim1_amended :
    (∀ text : String, transliterateToMarathiAsync none text = text) ∧
    phoneticTransliterate "Delhi" = "दएलहइ" ∧
    ("दएलहइ" : String) ≠ "" ∧
    (∀ c ∈ ("दएलहइ" : String).data, isDevChar c = true) := by
  refine ⟨?_, by decide, by decide, by decide⟩
  intro text
  unfold transliterateToMarathiAsync
  split
  · rfl
  · split
    · rfl
    · rfl

/-- C1 witness: instantiation of the amended claim at a concrete word and
a concrete Devanagari character of the transduced output. -/
theorem claim1_witness :
    transliterateToMarathiAsync none "Pune" = "Pune" ∧ isDevChar 'द' = true :=
  ⟨claim1_amended.1 "Pune", claim1_amended.2.2.2 'द' (by decide)⟩

/-- C2 counterexample: with the external backend unreachable, the engine
returns Mumbai unchanged instead of the dictionary value, so the
dictionary does not short-circuit before the backend availability check. -/
theorem claim2_counterexample :
    transliterateToMarathiAsync none "Mumbai" = "Mumbai" ∧
    ("Mumbai" : String) ≠ "मुंबई" := by
  exact ⟨by decide, by decide⟩

/-- C2 amended: inside the per-word transliteration the dictionary lookup
is the first and terminal step, returning the dictionary value for any
backend behaviour before any external attempt; and when the word-by-word
path runs with a loaded backend, Mumbai maps to the dictionary value even
if every external attempt throws; but with the backend unavailable the
engine returns the input unchanged without consulting the dictionary. -/
theorem claim2_amended :
    (∀ (oracle : Option Oracle) (word v : String),
      correctionDictionary (jsToLower word) = some v →
      transliterateWord oracle word = v) ∧
    transliterateToMarathiAsync (some (fun _ _ _ => none)) "Mumbai" = "मुंबई" ∧
    transliterateToMarathiAsync none "Mumbai" = "Mumbai" := by
  refine ⟨?_, by decide, by decide⟩
  intro oracle word v h
  simp only [transliterateWord, h]

/-- C2 witness: instantiation of the dictionary-first part at Mumbai with
no backend. -/
theorem claim2_witness : transliterateWord none "Mumbai" = "मुंबई" :=
  claim2_amended.1 none "Mumbai" "मुंबई" (by decide)

end VashiInvoice
